import Mathlib

/-!
Verification development for the argmin optimization toolbox.

We shallowly embed the numerical core of the repository over an arbitrary
`LinearOrderedField` (floating-point numbers are modelled as exact field
elements; NaN-initialized fields of `Brent::new` are overwritten by `init`
before any read, and are modelled here by the placeholder `0`).

Embedded components:
  * `Brent` (src/src/solver/brentopt/mod.rs): the univariate minimizer,
    state, `new`, `init`, `next_iter`.
  * `Newton` (src/src/solver/newton/newton_method.rs): `set_gamma`,
    `next_iter` over abstract parameter/Hessian capabilities.
  * the legacy `Newton` (src/src/newton.rs): `next_iter`, `terminate`, `run`.
  * `ArgminParameter::random` (src/src/parameter.rs) for `Vec<f64>` and
    `Array1<T>`, with the random source made an explicit stream.
-/

/-- Error taxonomy of the toolbox (spec §7): InvalidParameter,
EvaluationError, NotImplemented, NumericalError. -/
inductive ArgminErr where
  | invalidParameter
  | evaluationError
  | notImplemented
  | numericalError
  deriving DecidableEq, Repr

/-- Termination reasons relevant to the embedded solvers
(spec §3: NotTerminated, MaxItersReached, TargetPrecisionReached, ...). -/
inductive TerminationReason where
  | notTerminated
  | maxItersReached
  | targetPrecisionReached
  | targetCostReached
  deriving DecidableEq, Repr

/-- Rust `f64::signum` on non-NaN values: `1.0` for positive or `+0.0`,
`-1.0` for negative (src uses `F::signum`). -/
def rsignum {F : Type} [LinearOrderedField F] (x : F) : F :=
  if x < 0 then -1 else 1

/-- State of the Brent solver, mirroring `struct Brent<F>` in
src/src/solver/brentopt/mod.rs (fields in source order). -/
structure BrentState (F : Type) where
  /-- relative tolerance -/
  eps : F
  /-- absolute tolerance -/
  t : F
  /-- left boundary of current interval -/
  a : F
  /-- right boundary of current interval -/
  b : F
  /-- last point where f was evaluated -/
  u : F
  /-- previous value of w -/
  v : F
  /-- point with the current second lowest value of f -/
  w : F
  /-- point with the current lowest value of f -/
  x : F
  /-- value of f in v -/
  fv : F
  /-- value of f in w -/
  fw : F
  /-- value of f in x -/
  fx : F
  /-- value of p/q in the second last step -/
  e : F
  /-- value of p/q in the last step -/
  d : F
  /-- the golden-section constant `(3-sqrt 5)/2` in the Rust constructor;
  kept symbolic here -/
  c : F
  deriving DecidableEq, Repr

/-- Output of one Brent `next_iter` call: the updated solver state, the
emitted `(param, cost)` pair, whether `TargetPrecisionReached` was signalled,
the number of `op.apply` calls performed during the call, and whether the
parabolic-interpolation branch (rather than golden section) chose the step.
-/
structure BrentIterOut (F : Type) where
  state : BrentState F
  param : F
  cost : F
  targetPrecisionReached : Bool
  applies : Nat
  parabolic : Bool
  deriving DecidableEq, Repr

/-- `Brent::new(min, max)`: tolerances and the golden constant are taken as
parameters (`eps = F::epsilon().sqrt()`, `t = 1e-5`,
`c = (3 - 5.sqrt)/2` in the source); the NaN placeholders are modelled as
`0`, `e` and `d` start at `0` as in the source. -/
def brentNew {F : Type} [LinearOrderedField F] (min max eps t c : F) :
    BrentState F :=
  { eps := eps, t := t, a := min, b := max, u := 0, v := 0, w := 0, x := 0,
    fv := 0, fw := 0, fx := 0, e := 0, d := 0, c := c }

/-- `tol = eps * x.abs() + t` as computed at the top of `next_iter`. -/
def brentTol {F : Type} [LinearOrderedField F] (s : BrentState F) : F :=
  s.eps * |s.x| + s.t

/-- `m = (a + b) / 2` as computed at the top of `next_iter`. -/
def brentM {F : Type} [LinearOrderedField F] (s : BrentState F) : F :=
  (s.a + s.b) / 2

/-- The guard of the termination test in `next_iter`:
`(x - m).abs() <= two * tol - (b - a) / two`. -/
def brentDone {F : Type} [LinearOrderedField F] (s : BrentState F) : Prop :=
  |s.x - brentM s| ≤ 2 * brentTol s - (s.b - s.a) / 2

instance {F : Type} [LinearOrderedField F] (s : BrentState F) :
    Decidable (brentDone s) := by
  unfold brentDone; infer_instance

/-- `Brent::init`: evaluates the cost once at `u = a + c * (b - a)`, sets
`v = w = x = u`, `fv = fw = fx = f u` (the field `u` itself is NOT assigned
in the source), and emits `(x, fx)`.  Returns (state, param, cost). -/
def brentInit {F : Type} [LinearOrderedField F] (f : F → F)
    (s : BrentState F) : BrentState F × F × F :=
  let u := s.a + s.c * (s.b - s.a)
  let fu := f u
  let s' := { s with v := u, w := u, x := u, fv := fu, fw := fu, fx := fu }
  (s', s'.x, s'.fx)

/-- Bracket/point-history update of `next_iter` after `fu = f u` has been
evaluated (src lines 176-206). -/
def brentUpdate {F : Type} [LinearOrderedField F] (s : BrentState F)
    (u fu : F) : BrentState F :=
  if fu ≤ s.fx then
    { s with
      b := if u < s.x then s.x else s.b,
      a := if u < s.x then s.a else s.x,
      v := s.w, fv := s.fw,
      w := s.x, fw := s.fx,
      x := u, fx := fu }
  else
    let s1 := { s with
      a := if u < s.x then u else s.a,
      b := if u < s.x then s.b else u }
    if fu ≤ s.fw ∨ s.w = s.x then
      { s1 with v := s1.w, fv := s1.fw, w := u, fw := fu }
    else if fu ≤ s.fv ∨ s.v = s.x ∨ s.v = s.w then
      { s1 with v := u, fv := fu }
    else s1

/-- The parabola numerator `p` before sign normalization (src lines 144-145).
-/
def brentP0 {F : Type} [LinearOrderedField F] (s : BrentState F) : F :=
  (s.x - s.v) * (s.x - s.v) * (s.fx - s.fw)
    - (s.x - s.w) * (s.x - s.w) * (s.fx - s.fv)

/-- The parabola denominator `q` before sign normalization (src lines
146-147). -/
def brentQ0 {F : Type} [LinearOrderedField F] (s : BrentState F) : F :=
  2 * ((s.x - s.w) * (s.fx - s.fv) - (s.x - s.v) * (s.fx - s.fw))

/-- Normalized `p`: `let (p, q) = if q >= 0 { (p, q) } else { (-p, -q) }`. -/
def brentP {F : Type} [LinearOrderedField F] (s : BrentState F) : F :=
  if 0 ≤ brentQ0 s then brentP0 s else -brentP0 s

/-- Normalized `q` (nonnegative). -/
def brentQ {F : Type} [LinearOrderedField F] (s : BrentState F) : F :=
  if 0 ≤ brentQ0 s then brentQ0 s else -brentQ0 s

/-- The disjunction guarding the golden-section branch of `next_iter`
(src lines 149-153): the parabolic step is taken exactly when this fails. -/
def brentGolden {F : Type} [LinearOrderedField F] (s : BrentState F) : Prop :=
  |s.e| ≤ brentTol s ∨ brentP s < brentQ s * (s.a - s.x)
    ∨ brentQ s * (s.b - s.x) < brentP s ∨ brentQ s * |s.e| ≤ 2 * |brentP s|

instance {F : Type} [LinearOrderedField F] (s : BrentState F) :
    Decidable (brentGolden s) := by
  unfold brentGolden; infer_instance

/-- Trial point of `next_iter` (src lines 169-174):
`u = x + (if d.abs() >= tol then d else d.signum() * tol)`, computed from a
state already carrying the freshly assigned `d`. -/
def brentTrial {F : Type} [LinearOrderedField F] (s : BrentState F) : F :=
  s.x + (if brentTol s ≤ |s.d| then s.d else rsignum s.d * brentTol s)

/-- Tail of `next_iter` shared by both step kinds: computes the trial point,
performs the one `op.apply` call, updates bracket and history, and emits
`(x, fx)` of the updated state.  `s` already carries the freshly assigned
`e` and `d`. -/
def brentEval {F : Type} [LinearOrderedField F] (f : F → F)
    (s : BrentState F) (parab : Bool) : BrentIterOut F :=
  let u := brentTrial s
  let fu := f u
  let s' := brentUpdate { s with u := u } u fu
  { state := s', param := s'.x, cost := s'.fx,
    targetPrecisionReached := false, applies := 1, parabolic := parab }

/-- `Brent::next_iter` (src lines 129-208).  The termination branch performs
no evaluation; every other branch performs exactly one. -/
def brentNextIter {F : Type} [LinearOrderedField F] (f : F → F)
    (s : BrentState F) : BrentIterOut F :=
  let tol := brentTol s
  let m := brentM s
  if |s.x - m| ≤ 2 * tol - (s.b - s.a) / 2 then
    { state := s, param := s.x, cost := s.fx,
      targetPrecisionReached := true, applies := 0, parabolic := false }
  else if brentGolden s then
    -- golden section step
    let e' := (if s.x < m then s.b else s.a) - s.x
    brentEval f { s with e := e', d := s.c * e' } false
  else
    -- parabolic interpolation step
    let dp := brentP s / brentQ s
    let d' := if s.x + dp - s.a < 2 * tol ∨ s.b - s.x - dp < 2 * tol then
        rsignum (m - s.x) * tol
      else dp
    brentEval f { s with e := s.d, d := d' } true

theorem brentEval_tpr {F : Type} [LinearOrderedField F] (f : F → F)
    (s : BrentState F) (p : Bool) :
    (brentEval f s p).targetPrecisionReached = false := rfl

theorem brentEval_applies {F : Type} [LinearOrderedField F] (f : F → F)
    (s : BrentState F) (p : Bool) : (brentEval f s p).applies = 1 := rfl

theorem brentNextIter_done {F : Type} [LinearOrderedField F] (f : F → F)
    (s : BrentState F) (hd : brentDone s) :
    brentNextIter f s =
      { state := s, param := s.x, cost := s.fx,
        targetPrecisionReached := true, applies := 0, parabolic := false } := by
  simp only [brentDone, brentTol, brentM] at hd
  simp only [brentNextIter, brentTol, brentM, hd, if_true]

theorem brentNextIter_not_done {F : Type} [LinearOrderedField F] (f : F → F)
    (s : BrentState F) (hd : ¬ brentDone s) :
    (brentNextIter f s).targetPrecisionReached = false ∧
    (brentNextIter f s).applies = 1 := by
  simp only [brentDone, brentTol, brentM] at hd
  simp only [brentNextIter, brentTol, brentM, hd, if_false]
  constructor <;> (split <;> simp [brentEval_tpr, brentEval_applies])

theorem brentUpdate_keeps {F : Type} [LinearOrderedField F]
    (s : BrentState F) (u fu : F) :
    (brentUpdate s u fu).e = s.e ∧ (brentUpdate s u fu).d = s.d ∧
    (brentUpdate s u fu).u = s.u ∧ (brentUpdate s u fu).eps = s.eps ∧
    (brentUpdate s u fu).t = s.t ∧ (brentUpdate s u fu).c = s.c := by
  unfold brentUpdate
  split_ifs <;> simp

theorem brentQ_nonneg {F : Type} [LinearOrderedField F] (s : BrentState F) :
    0 ≤ brentQ s := by
  unfold brentQ
  split_ifs with h
  · exact h
  · linarith [not_le.mp h]

theorem brentEval_parabolic {F : Type} [LinearOrderedField F] (f : F → F)
    (s : BrentState F) (p : Bool) : (brentEval f s p).parabolic = p := rfl

theorem brentEval_state_e {F : Type} [LinearOrderedField F] (f : F → F)
    (s : BrentState F) (p : Bool) : (brentEval f s p).state.e = s.e := by
  simp [brentEval, (brentUpdate_keeps _ _ _).1]

theorem brentEval_state_d {F : Type} [LinearOrderedField F] (f : F → F)
    (s : BrentState F) (p : Bool) : (brentEval f s p).state.d = s.d := by
  simp [brentEval, (brentUpdate_keeps _ _ _).2.1]

/-- C1: Brent's `next_iter` signals `TargetPrecisionReached`, returning the
current `(x, fx)` pair, exactly when `|x - m| ≤ 2*tol - (b-a)/2` (with
`m = (a+b)/2`, `tol = eps*|x| + t`); in that case it performs no operator
evaluation, and otherwise exactly one `apply` call. -/
theorem brent_c1_termination (F : Type) [LinearOrderedField F] (f : F → F)
    (s : BrentState F) :
    ((brentNextIter f s).targetPrecisionReached = true ↔ brentDone s) ∧
    (brentDone s →
      (brentNextIter f s).param = s.x ∧ (brentNextIter f s).cost = s.fx ∧
      (brentNextIter f s).applies = 0) ∧
    (¬ brentDone s → (brentNextIter f s).applies = 1) := by
  by_cases hd : brentDone s
  · rw [brentNextIter_done f s hd]
    simp [hd]
  · have h := brentNextIter_not_done f s hd
    exact ⟨by simp [h.1, hd], fun h2 => absurd h2 hd, fun _ => h.2⟩

/-- C2 (amended): in a non-terminating `next_iter` call the parabolic step is
taken iff `|e| > tol`, `q*(a-x) ≤ p ≤ q*(b-x)` (non-strict, since the source
tests `p < q*(a-x)` and `p > q*(b-x)` to reject), and `|p| < |q*e|/2`;
otherwise the golden-section step sets `e = ((x < m) ? b : a) - x` and
`d = c*e`. -/
theorem brent_c2_parabolic_condition (F : Type) [LinearOrderedField F]
    (f : F → F) (s : BrentState F) (hd : ¬ brentDone s) :
    ((brentNextIter f s).parabolic = true ↔
      brentTol s < |s.e| ∧ brentQ s * (s.a - s.x) ≤ brentP s ∧
        brentP s ≤ brentQ s * (s.b - s.x) ∧
        |brentP s| < |brentQ s * s.e| / 2) ∧
    ((brentNextIter f s).parabolic = false →
      (brentNextIter f s).state.e = (if s.x < brentM s then s.b else s.a) - s.x ∧
      (brentNextIter f s).state.d =
        s.c * ((if s.x < brentM s then s.b else s.a) - s.x)) := by
  have hq := brentQ_nonneg s
  have habs : |brentQ s * s.e| = brentQ s * |s.e| := by
    rw [abs_mul, abs_of_nonneg hq]
  have hd' := hd
  simp only [brentDone, brentTol, brentM] at hd'
  simp only [brentNextIter, brentTol, brentM, hd', if_false]
  by_cases hg : brentGolden s
  · simp only [hg, if_true]
    refine ⟨?_, fun _ => ?_⟩
    · simp only [brentEval_parabolic]
      constructor
      · intro h
        exact absurd h (by simp)
      · intro h
        exfalso
        simp only [brentTol] at h
        rw [habs] at h
        rcases hg with h1 | h1 | h1 | h1
        · simp only [brentTol] at h1
          exact absurd h.1 (not_lt.mpr h1)
        · exact absurd h.2.1 (not_le.mpr h1)
        · exact absurd h.2.2.1 (not_le.mpr h1)
        · have := h.2.2.2
          linarith
    · exact ⟨by rw [brentEval_state_e], by rw [brentEval_state_d]⟩
  · simp only [hg, if_false]
    have hg' := hg
    simp only [brentGolden, brentTol] at hg'
    push_neg at hg'
    refine ⟨?_, fun h => by simp [brentEval_parabolic] at h⟩
    simp only [brentEval_parabolic, true_iff, brentTol]
    refine ⟨hg'.1, hg'.2.1, hg'.2.2.1, ?_⟩
    rw [habs]
    linarith [hg'.2.2.2]

/-- The concrete state refuting C2's strict inequalities: here
`p = q*(a-x) = -4` exactly, so the source takes the parabolic branch while
the claim's strict condition `q*(a-x) < p` fails. -/
def brentC2state : BrentState ℚ :=
  { eps := 1/10, t := 1/10, a := -1, b := 1, u := 0, v := 1, w := -1, x := 0,
    fv := 3, fw := -1, fx := 0, e := 3, d := 0, c := 2/5 }

/-- C2 counterexample: a non-terminating call that takes the parabolic step
although the claim's strict condition `q*(a-x) < p < q*(b-x)` fails. -/
theorem brent_c2_counterexample :
    ¬ brentDone brentC2state ∧
    (brentNextIter (fun z => z) brentC2state).parabolic = true ∧
    ¬ (brentTol brentC2state < |brentC2state.e| ∧
        brentQ brentC2state * (brentC2state.a - brentC2state.x) <
          brentP brentC2state ∧
        brentP brentC2state <
          brentQ brentC2state * (brentC2state.b - brentC2state.x) ∧
        |brentP brentC2state| <
          |brentQ brentC2state * brentC2state.e| / 2) := by
  refine ⟨?_, ?_, ?_⟩ <;>
    norm_num [brentDone, brentNextIter, brentGolden, brentEval, brentUpdate,
      brentTrial, brentTol, brentM, brentP, brentQ, brentP0, brentQ0,
      rsignum, brentC2state]

/-- Witness for C2's amended theorem at a concrete state. -/
theorem brent_c2_parabolic_condition_witness :
    (brentNextIter (fun z : ℚ => z) brentC2state).parabolic = true ↔
      brentTol brentC2state < |brentC2state.e| ∧
      brentQ brentC2state * (brentC2state.a - brentC2state.x) ≤
        brentP brentC2state ∧
      brentP brentC2state ≤
        brentQ brentC2state * (brentC2state.b - brentC2state.x) ∧
      |brentP brentC2state| < |brentQ brentC2state * brentC2state.e| / 2 :=
  (brent_c2_parabolic_condition ℚ (fun z => z) brentC2state (by
    norm_num [brentDone, brentTol, brentM, brentC2state])).1

theorem brentUpdate_cases {F : Type} [LinearOrderedField F]
    (s : BrentState F) (u fu : F) :
    (fu ≤ s.fx →
      ((u < s.x → (brentUpdate s u fu).b = s.x ∧ (brentUpdate s u fu).a = s.a) ∧
       (¬ u < s.x → (brentUpdate s u fu).a = s.x ∧ (brentUpdate s u fu).b = s.b)) ∧
      (brentUpdate s u fu).v = s.w ∧ (brentUpdate s u fu).fv = s.fw ∧
      (brentUpdate s u fu).w = s.x ∧ (brentUpdate s u fu).fw = s.fx ∧
      (brentUpdate s u fu).x = u ∧ (brentUpdate s u fu).fx = fu) ∧
    (¬ fu ≤ s.fx →
      ((u < s.x → (brentUpdate s u fu).a = u ∧ (brentUpdate s u fu).b = s.b) ∧
       (¬ u < s.x → (brentUpdate s u fu).b = u ∧ (brentUpdate s u fu).a = s.a)) ∧
      (brentUpdate s u fu).x = s.x ∧ (brentUpdate s u fu).fx = s.fx ∧
      ((fu ≤ s.fw ∨ s.w = s.x) →
        (brentUpdate s u fu).v = s.w ∧ (brentUpdate s u fu).fv = s.fw ∧
        (brentUpdate s u fu).w = u ∧ (brentUpdate s u fu).fw = fu) ∧
      (¬ (fu ≤ s.fw ∨ s.w = s.x) → (fu ≤ s.fv ∨ s.v = s.x ∨ s.v = s.w) →
        (brentUpdate s u fu).v = u ∧ (brentUpdate s u fu).fv = fu ∧
        (brentUpdate s u fu).w = s.w ∧ (brentUpdate s u fu).fw = s.fw) ∧
      (¬ (fu ≤ s.fw ∨ s.w = s.x) → ¬ (fu ≤ s.fv ∨ s.v = s.x ∨ s.v = s.w) →
        (brentUpdate s u fu).v = s.v ∧ (brentUpdate s u fu).fv = s.fv ∧
        (brentUpdate s u fu).w = s.w ∧ (brentUpdate s u fu).fw = s.fw)) := by
  unfold brentUpdate
  split_ifs <;> simp_all

theorem brentNextIter_form {F : Type} [LinearOrderedField F] (f : F → F)
    (s : BrentState F) (hd : ¬ brentDone s) :
    ∃ s₂ : BrentState F, ∃ pb : Bool,
      s₂.a = s.a ∧ s₂.b = s.b ∧ s₂.v = s.v ∧ s₂.w = s.w ∧ s₂.x = s.x ∧
      s₂.fv = s.fv ∧ s₂.fw = s.fw ∧ s₂.fx = s.fx ∧
      brentNextIter f s = brentEval f s₂ pb := by
  have hd' := hd
  simp only [brentDone, brentTol, brentM] at hd'
  simp only [brentNextIter, brentTol, brentM, hd', if_false]
  by_cases hg : brentGolden s
  · simp only [hg, if_true]
    refine ⟨_, false, ?_, ?_, ?_, ?_, ?_, ?_, ?_, ?_, rfl⟩ <;> rfl
  · simp only [hg, if_false]
    refine ⟨_, true, ?_, ?_, ?_, ?_, ?_, ?_, ?_, ?_, rfl⟩ <;> rfl

/-- C3: after a non-terminating `next_iter` call evaluates `fu = f u` at the
trial point `u`, the bracket and point history are updated exactly as the
claim describes: the call's final state is `brentUpdate sp u fu` for an
intermediate state `sp` agreeing with the incoming state on
`a,b,v,w,x,fv,fw,fx`, and the resulting fields follow the claimed case
analysis on `fu ≤ fx`, `u < x`, `fu ≤ fw ∨ w = x`, `fu ≤ fv ∨ v = x ∨ v = w`.
-/
theorem brent_c3_history_update (F : Type) [LinearOrderedField F]
    (f : F → F) (s : BrentState F) (u fu : F) (hd : ¬ brentDone s)
    (hu : u = (brentNextIter f s).state.u) (hfu : fu = f u) :
    ∃ sp : BrentState F,
      sp.a = s.a ∧ sp.b = s.b ∧ sp.v = s.v ∧ sp.w = s.w ∧ sp.x = s.x ∧
      sp.fv = s.fv ∧ sp.fw = s.fw ∧ sp.fx = s.fx ∧
      (brentNextIter f s).state = brentUpdate sp u fu ∧
      ((fu ≤ s.fx →
        ((u < s.x → (brentNextIter f s).state.b = s.x ∧
            (brentNextIter f s).state.a = s.a) ∧
         (¬ u < s.x → (brentNextIter f s).state.a = s.x ∧
            (brentNextIter f s).state.b = s.b)) ∧
        (brentNextIter f s).state.v = s.w ∧
        (brentNextIter f s).state.fv = s.fw ∧
        (brentNextIter f s).state.w = s.x ∧
        (brentNextIter f s).state.fw = s.fx ∧
        (brentNextIter f s).state.x = u ∧
        (brentNextIter f s).state.fx = fu) ∧
      (¬ fu ≤ s.fx →
        ((u < s.x → (brentNextIter f s).state.a = u ∧
            (brentNextIter f s).state.b = s.b) ∧
         (¬ u < s.x → (brentNextIter f s).state.b = u ∧
            (brentNextIter f s).state.a = s.a)) ∧
        (brentNextIter f s).state.x = s.x ∧
        (brentNextIter f s).state.fx = s.fx ∧
        ((fu ≤ s.fw ∨ s.w = s.x) →
          (brentNextIter f s).state.v = s.w ∧
          (brentNextIter f s).state.fv = s.fw ∧
          (brentNextIter f s).state.w = u ∧
          (brentNextIter f s).state.fw = fu) ∧
        (¬ (fu ≤ s.fw ∨ s.w = s.x) → (fu ≤ s.fv ∨ s.v = s.x ∨ s.v = s.w) →
          (brentNextIter f s).state.v = u ∧
          (brentNextIter f s).state.fv = fu ∧
          (brentNextIter f s).state.w = s.w ∧
          (brentNextIter f s).state.fw = s.fw) ∧
        (¬ (fu ≤ s.fw ∨ s.w = s.x) → ¬ (fu ≤ s.fv ∨ s.v = s.x ∨ s.v = s.w) →
          (brentNextIter f s).state.v = s.v ∧
          (brentNextIter f s).state.fv = s.fv ∧
          (brentNextIter f s).state.w = s.w ∧
          (brentNextIter f s).state.fw = s.fw))) := by
  obtain ⟨s₂, pb, ha, hb, hv, hw, hx, hfv, hfw, hfx, heq⟩ :=
    brentNextIter_form f s hd
  have hU : u = brentTrial s₂ := by
    rw [hu, heq]
    simp [brentEval, (brentUpdate_keeps _ _ _).2.2.1]
  have hstate : (brentNextIter f s).state =
      brentUpdate { s₂ with u := brentTrial s₂ } u fu := by
    rw [hU, hfu, hU, heq]
    rfl
  have hc := brentUpdate_cases { s₂ with u := brentTrial s₂ } u fu
  simp only [hstate]
  refine ⟨{ s₂ with u := brentTrial s₂ }, ha, hb, hv, hw, hx, hfv, hfw, hfx,
    rfl, ?_⟩
  simp only [ha, hb, hv, hw, hx, hfv, hfw, hfx] at hc ⊢
  exact hc

/-- Concrete state exercising C3's update (golden-section step, `fu ≤ fx`
branch): the trial point is `u = 11/5` with `f = id`. -/
def brentC3state : BrentState ℚ :=
  { eps := 1/10, t := 1/10, a := 0, b := 4, u := 0, v := 1, w := 1, x := 1,
    fv := 5, fw := 5, fx := 4, e := 0, d := 0, c := 2/5 }

/-- Witness for C3 at `brentC3state`. -/
theorem brent_c3_history_update_witness :
    ∃ sp : BrentState ℚ,
      sp.a = brentC3state.a ∧ sp.b = brentC3state.b ∧
      sp.v = brentC3state.v ∧ sp.w = brentC3state.w ∧
      sp.x = brentC3state.x ∧ sp.fv = brentC3state.fv ∧
      sp.fw = brentC3state.fw ∧ sp.fx = brentC3state.fx ∧
      (brentNextIter (fun z : ℚ => z) brentC3state).state =
        brentUpdate sp (11/5) (11/5) ∧
      (((11:ℚ)/5 ≤ brentC3state.fx →
        (((11:ℚ)/5 < brentC3state.x →
            (brentNextIter (fun z : ℚ => z) brentC3state).state.b =
              brentC3state.x ∧
            (brentNextIter (fun z : ℚ => z) brentC3state).state.a =
              brentC3state.a) ∧
         (¬ (11:ℚ)/5 < brentC3state.x →
            (brentNextIter (fun z : ℚ => z) brentC3state).state.a =
              brentC3state.x ∧
            (brentNextIter (fun z : ℚ => z) brentC3state).state.b =
              brentC3state.b)) ∧
        (brentNextIter (fun z : ℚ => z) brentC3state).state.v =
          brentC3state.w ∧
        (brentNextIter (fun z : ℚ => z) brentC3state).state.fv =
          brentC3state.fw ∧
        (brentNextIter (fun z : ℚ => z) brentC3state).state.w =
          brentC3state.x ∧
        (brentNextIter (fun z : ℚ => z) brentC3state).state.fw =
          brentC3state.fx ∧
        (brentNextIter (fun z : ℚ => z) brentC3state).state.x = 11/5 ∧
        (brentNextIter (fun z : ℚ => z) brentC3state).state.fx = 11/5) ∧
      (¬ (11:ℚ)/5 ≤ brentC3state.fx →
        (((11:ℚ)/5 < brentC3state.x →
            (brentNextIter (fun z : ℚ => z) brentC3state).state.a = 11/5 ∧
            (brentNextIter (fun z : ℚ => z) brentC3state).state.b =
              brentC3state.b) ∧
         (¬ (11:ℚ)/5 < brentC3state.x →
            (brentNextIter (fun z : ℚ => z) brentC3state).state.b = 11/5 ∧
            (brentNextIter (fun z : ℚ => z) brentC3state).state.a =
              brentC3state.a)) ∧
        (brentNextIter (fun z : ℚ => z) brentC3state).state.x =
          brentC3state.x ∧
        (brentNextIter (fun z : ℚ => z) brentC3state).state.fx =
          brentC3state.fx ∧
        (((11:ℚ)/5 ≤ brentC3state.fw ∨ brentC3state.w = brentC3state.x) →
          (brentNextIter (fun z : ℚ => z) brentC3state).state.v =
            brentC3state.w ∧
          (brentNextIter (fun z : ℚ => z) brentC3state).state.fv =
            brentC3state.fw ∧
          (brentNextIter (fun z : ℚ => z) brentC3state).state.w = 11/5 ∧
          (brentNextIter (fun z : ℚ => z) brentC3state).state.fw = 11/5) ∧
        (¬ ((11:ℚ)/5 ≤ brentC3state.fw ∨ brentC3state.w = brentC3state.x) →
          ((11:ℚ)/5 ≤ brentC3state.fv ∨ brentC3state.v = brentC3state.x ∨
            brentC3state.v = brentC3state.w) →
          (brentNextIter (fun z : ℚ => z) brentC3state).state.v = 11/5 ∧
          (brentNextIter (fun z : ℚ => z) brentC3state).state.fv = 11/5 ∧
          (brentNextIter (fun z : ℚ => z) brentC3state).state.w =
            brentC3state.w ∧
          (brentNextIter (fun z : ℚ => z) brentC3state).state.fw =
            brentC3state.fw) ∧
        (¬ ((11:ℚ)/5 ≤ brentC3state.fw ∨ brentC3state.w = brentC3state.x) →
          ¬ ((11:ℚ)/5 ≤ brentC3state.fv ∨ brentC3state.v = brentC3state.x ∨
            brentC3state.v = brentC3state.w) →
          (brentNextIter (fun z : ℚ => z) brentC3state).state.v =
            brentC3state.v ∧
          (brentNextIter (fun z : ℚ => z) brentC3state).state.fv =
            brentC3state.fv ∧
          (brentNextIter (fun z : ℚ => z) brentC3state).state.w =
            brentC3state.w ∧
          (brentNextIter (fun z : ℚ => z) brentC3state).state.fw =
            brentC3state.fw))) :=
  brent_c3_history_update ℚ (fun z => z) brentC3state (11/5) (11/5)
    (by norm_num [brentDone, brentTol, brentM, brentC3state])
    (by norm_num [brentNextIter, brentDone, brentGolden, brentEval,
      brentUpdate, brentTrial, brentTol, brentM, brentP, brentQ, brentP0,
      brentQ0, rsignum, brentC3state, abs_of_nonneg, abs_of_nonpos])
    rfl

/-- C7: a Brent solver constructed with a degenerate bracket `a == b` (and
any tolerances with `eps ≥ 0`, `t > 0`, as the defaults
`eps = sqrt(machine epsilon)`, `t = 1e-5` are): `init` evaluates the cost
once at `u = a + c*(b-a) = a` and emits `(a, f a)`, and the first
`next_iter` call passes the precision test and terminates with
`TargetPrecisionReached`, performing no operator evaluation — so the whole
run performs exactly one evaluation. -/
theorem brent_c7_degenerate_bracket (F : Type) [LinearOrderedField F]
    (f : F → F) (a eps t c : F) (heps : 0 ≤ eps) (ht : 0 < t) :
    (brentInit f (brentNew a a eps t c)).2.1 = a ∧
    (brentInit f (brentNew a a eps t c)).2.2 = f a ∧
    brentDone (brentInit f (brentNew a a eps t c)).1 ∧
    (brentNextIter f (brentInit f (brentNew a a eps t c)).1).targetPrecisionReached
      = true ∧
    (brentNextIter f (brentInit f (brentNew a a eps t c)).1).applies = 0 ∧
    (brentNextIter f (brentInit f (brentNew a a eps t c)).1).param = a ∧
    (brentNextIter f (brentInit f (brentNew a a eps t c)).1).cost = f a := by
  have hx : a + c * (a - a) = a := by ring
  have h1 : (brentInit f (brentNew a a eps t c)).2.1 = a := by
    simp only [brentInit, brentNew]
    exact hx
  have h2 : (brentInit f (brentNew a a eps t c)).2.2 = f a := by
    simp only [brentInit, brentNew]
    rw [hx]
  have hdone : brentDone (brentInit f (brentNew a a eps t c)).1 := by
    simp only [brentInit, brentNew, brentDone, brentTol, brentM]
    rw [hx]
    have e1 : a - (a + a) / 2 = 0 := by ring
    have e2 : (a - a) / 2 = 0 := by ring
    rw [e1, e2, abs_zero]
    have h3 : 0 ≤ eps * |a| := mul_nonneg heps (abs_nonneg a)
    linarith
  have hrw := brentNextIter_done f _ hdone
  refine ⟨h1, h2, hdone, ?_, ?_, ?_, ?_⟩ <;> rw [hrw]
  · show (brentInit f (brentNew a a eps t c)).1.x = a
    simp only [brentInit, brentNew]
    exact hx
  · show (brentInit f (brentNew a a eps t c)).1.fx = f a
    simp only [brentInit, brentNew]
    rw [hx]

/-- Witness for C7: rational instance with `a = b = 1`, `eps = 1/1000`,
`t = 1/100000`, `c = 2/5`, `f = id`. -/
theorem brent_c7_degenerate_bracket_witness :
    (brentInit (fun z : ℚ => z) (brentNew 1 1 (1/1000) (1/100000) (2/5))).2.1
      = 1 ∧
    (brentInit (fun z : ℚ => z) (brentNew 1 1 (1/1000) (1/100000) (2/5))).2.2
      = (fun z : ℚ => z) 1 ∧
    brentDone
      (brentInit (fun z : ℚ => z) (brentNew 1 1 (1/1000) (1/100000) (2/5))).1 ∧
    (brentNextIter (fun z : ℚ => z)
      (brentInit (fun z : ℚ => z)
        (brentNew 1 1 (1/1000) (1/100000) (2/5))).1).targetPrecisionReached
      = true ∧
    (brentNextIter (fun z : ℚ => z)
      (brentInit (fun z : ℚ => z)
        (brentNew 1 1 (1/1000) (1/100000) (2/5))).1).applies = 0 ∧
    (brentNextIter (fun z : ℚ => z)
      (brentInit (fun z : ℚ => z)
        (brentNew 1 1 (1/1000) (1/100000) (2/5))).1).param = 1 ∧
    (brentNextIter (fun z : ℚ => z)
      (brentInit (fun z : ℚ => z)
        (brentNew 1 1 (1/1000) (1/100000) (2/5))).1).cost = (fun z : ℚ => z) 1 :=
  brent_c7_degenerate_bracket ℚ (fun z => z) 1 (1/1000) (1/100000) (2/5)
    (by norm_num) (by norm_num)

/-- Iterating `next_iter` `n` times from a state (the Executor's loop,
restricted to the solver-owned state). -/
def brentRun {F : Type} [LinearOrderedField F] (f : F → F) :
    Nat → BrentState F → BrentState F
  | 0, s => s
  | n + 1, s => brentRun f n (brentNextIter f s).state

/-- The whole deterministic pipeline: construct with `Brent::new`, run
`init`, then `n` `next_iter` calls. -/
def brentFullRun {F : Type} [LinearOrderedField F] (f : F → F)
    (minv maxv eps t c : F) (n : Nat) : BrentState F :=
  brentRun f n (brentInit f (brentNew minv maxv eps t c)).1

/-- C9: Brent is deterministic — two runs from identical constructor
arguments against extensionally equal deterministic cost operators produce
identical init outputs, identical states after every number of iterations,
and identical next outputs. -/
theorem brent_c9_deterministic (F : Type) [LinearOrderedField F]
    (f g : F → F) (h : ∀ z, f z = g z) (minv maxv eps t c : F) (n : Nat) :
    brentInit f (brentNew minv maxv eps t c) =
      brentInit g (brentNew minv maxv eps t c) ∧
    brentFullRun f minv maxv eps t c n = brentFullRun g minv maxv eps t c n ∧
    brentNextIter f (brentFullRun f minv maxv eps t c n) =
      brentNextIter g (brentFullRun g minv maxv eps t c n) := by
  have hfg : f = g := funext h
  subst hfg
  exact ⟨rfl, rfl, rfl⟩

/-- Witness for C9 at a rational instance. -/
theorem brent_c9_deterministic_witness :
    brentInit (fun z : ℚ => z * z) (brentNew 0 2 (1/10) (1/10) (2/5)) =
      brentInit (fun z : ℚ => z * z) (brentNew 0 2 (1/10) (1/10) (2/5)) ∧
    brentFullRun (fun z : ℚ => z * z) 0 2 (1/10) (1/10) (2/5) 3 =
      brentFullRun (fun z : ℚ => z * z) 0 2 (1/10) (1/10) (2/5) 3 ∧
    brentNextIter (fun z : ℚ => z * z)
        (brentFullRun (fun z : ℚ => z * z) 0 2 (1/10) (1/10) (2/5) 3) =
      brentNextIter (fun z : ℚ => z * z)
        (brentFullRun (fun z : ℚ => z * z) 0 2 (1/10) (1/10) (2/5) 3) :=
  brent_c9_deterministic ℚ (fun z => z * z) (fun z => z * z) (fun _ => rfl)
    0 2 (1/10) (1/10) (2/5) 3

/-- The C10 invariant: `x` carries the lowest and `w` the second lowest
cost seen, so `fx ≤ fw` and `fx ≤ fv`. -/
def BrentInv {F : Type} [LinearOrderedField F] (s : BrentState F) : Prop :=
  s.fx ≤ s.fw ∧ s.fx ≤ s.fv

theorem brentUpdate_inv {F : Type} [LinearOrderedField F]
    (s : BrentState F) (u fu : F) (h : BrentInv s) :
    BrentInv (brentUpdate s u fu) ∧ (brentUpdate s u fu).fx ≤ s.fx ∧
    (brentUpdate s u fu).fx ≤ fu := by
  obtain ⟨h1, h2⟩ := h
  unfold BrentInv brentUpdate
  split_ifs <;> refine ⟨⟨?_, ?_⟩, ?_, ?_⟩ <;> simp_all <;> linarith

theorem brentEval_state_eq {F : Type} [LinearOrderedField F] (f : F → F)
    (s : BrentState F) (pb : Bool) :
    (brentEval f s pb).state =
      brentUpdate { s with u := brentTrial s } (brentTrial s)
        (f (brentTrial s)) := rfl

theorem brentNextIter_inv {F : Type} [LinearOrderedField F] (f : F → F)
    (s : BrentState F) (hs : BrentInv s) :
    BrentInv (brentNextIter f s).state ∧
    (brentNextIter f s).state.fx ≤ s.fx ∧
    (¬ brentDone s →
      (brentNextIter f s).state.fx ≤ f ((brentNextIter f s).state.u)) := by
  by_cases hd : brentDone s
  · rw [brentNextIter_done f s hd]
    exact ⟨hs, le_refl _, fun h => absurd hd h⟩
  · obtain ⟨s₂, pb, ha, hb, hv, hw, hx, hfv, hfw, hfx, heq⟩ :=
      brentNextIter_form f s hd
    have hInv2 : BrentInv { s₂ with u := brentTrial s₂ } := by
      show s₂.fx ≤ s₂.fw ∧ s₂.fx ≤ s₂.fv
      rw [hfx, hfw, hfv]
      exact hs
    have hupd := brentUpdate_inv { s₂ with u := brentTrial s₂ }
      (brentTrial s₂) (f (brentTrial s₂)) hInv2
    have hu : (brentNextIter f s).state.u = brentTrial s₂ := by
      rw [heq, brentEval_state_eq, (brentUpdate_keeps _ _ _).2.2.1]
    rw [heq, brentEval_state_eq] at *
    refine ⟨hupd.1, ?_, fun _ => ?_⟩
    · have := hupd.2.1
      show _ ≤ s.fx
      rw [← hfx]
      exact this
    · rw [hu]
      exact hupd.2.2

/-- The points at which `f` is evaluated during the first `n` `next_iter`
calls from state `s` (terminal calls evaluate nothing). -/
def brentEvalPts {F : Type} [LinearOrderedField F] (f : F → F) :
    Nat → BrentState F → List F
  | 0, _ => []
  | n + 1, s =>
    (if (brentNextIter f s).applies = 1 then [(brentNextIter f s).state.u]
      else []) ++ brentEvalPts f n (brentNextIter f s).state

theorem brentRun_inv {F : Type} [LinearOrderedField F] (f : F → F) (n : Nat) :
    ∀ s : BrentState F, BrentInv s →
      BrentInv (brentRun f n s) ∧ (brentRun f n s).fx ≤ s.fx ∧
      ∀ p ∈ brentEvalPts f n s, (brentRun f n s).fx ≤ f p := by
  induction n with
  | zero => exact fun s hs => ⟨hs, le_refl _, by simp [brentEvalPts]⟩
  | succ n ih =>
    intro s hs
    have hstep := brentNextIter_inv f s hs
    have hrec := ih (brentNextIter f s).state hstep.1
    have hrun : brentRun f (n + 1) s = brentRun f n (brentNextIter f s).state
      := rfl
    refine ⟨hrun ▸ hrec.1, ?_, ?_⟩
    · rw [hrun]
      exact le_trans hrec.2.1 hstep.2.1
    · intro p hp
      rw [hrun]
      simp only [brentEvalPts, List.mem_append] at hp
      rcases hp with hp | hp
      · have happ : (brentNextIter f s).applies = 1 := by
          by_contra happ
          simp only [happ, if_false, List.not_mem_nil] at hp
        have hd : ¬ brentDone s := by
          intro hd
          rw [brentNextIter_done f s hd] at happ
          exact absurd happ (by simp)
        simp only [happ, if_true, List.mem_singleton] at hp
        subst hp
        exact le_trans hrec.2.1 (hstep.2.2 hd)
      · exact hrec.2.2 p hp

/-- C10: after `init` the invariant `fx ≤ fw ∧ fx ≤ fv` holds, every
`next_iter` call preserves it and never increases `fx`, and after any
number of iterations `fx` is a lower bound on `f` at every point evaluated
so far in the run (the `init` point and every trial point). -/
theorem brent_c10_lowest_invariant (F : Type) [LinearOrderedField F]
    (f : F → F) (s0 : BrentState F) (n : Nat) :
    BrentInv (brentInit f s0).1 ∧
    (∀ s : BrentState F, BrentInv s →
      BrentInv (brentNextIter f s).state ∧
      (brentNextIter f s).state.fx ≤ s.fx) ∧
    (brentRun f n (brentInit f s0).1).fx ≤
      f (s0.a + s0.c * (s0.b - s0.a)) ∧
    ∀ p ∈ brentEvalPts f n (brentInit f s0).1,
      (brentRun f n (brentInit f s0).1).fx ≤ f p := by
  have hinit : BrentInv (brentInit f s0).1 :=
    ⟨le_refl _, le_refl _⟩
  have hrun := brentRun_inv f n (brentInit f s0).1 hinit
  refine ⟨hinit, ?_, ?_, hrun.2.2⟩
  · intro s hs
    have h := brentNextIter_inv f s hs
    exact ⟨h.1, h.2.1⟩
  · have hfx0 : (brentInit f s0).1.fx = f (s0.a + s0.c * (s0.b - s0.a)) := rfl
    rw [← hfx0]
    exact hrun.2.1

/-- Witness for C10 at a rational instance. -/
theorem brent_c10_lowest_invariant_witness :
    BrentInv (brentInit (fun z : ℚ => z * z) (brentNew 0 2 (1/10) (1/10) (2/5))).1 ∧
    (∀ s : BrentState ℚ, BrentInv s →
      BrentInv (brentNextIter (fun z : ℚ => z * z) s).state ∧
      (brentNextIter (fun z : ℚ => z * z) s).state.fx ≤ s.fx) ∧
    (brentRun (fun z : ℚ => z * z) 2
        (brentInit (fun z : ℚ => z * z) (brentNew 0 2 (1/10) (1/10) (2/5))).1).fx ≤
      (fun z : ℚ => z * z)
        ((brentNew 0 2 (1/10) (1/10) (2/5) : BrentState ℚ).a +
          (brentNew 0 2 (1/10) (1/10) (2/5) : BrentState ℚ).c *
            ((brentNew 0 2 (1/10) (1/10) (2/5) : BrentState ℚ).b -
              (brentNew 0 2 (1/10) (1/10) (2/5) : BrentState ℚ).a)) ∧
    ∀ p ∈ brentEvalPts (fun z : ℚ => z * z) 2
        (brentInit (fun z : ℚ => z * z) (brentNew 0 2 (1/10) (1/10) (2/5))).1,
      (brentRun (fun z : ℚ => z * z) 2
          (brentInit (fun z : ℚ => z * z)
            (brentNew 0 2 (1/10) (1/10) (2/5))).1).fx ≤ (fun z : ℚ => z * z) p :=
  brent_c10_lowest_invariant ℚ (fun z => z * z)
    (brentNew 0 2 (1/10) (1/10) (2/5)) 2

/-- The modern Newton solver (src/src/solver/newton/newton_method.rs):
`struct Newton { gamma: f64 }`. -/
structure Newton (F : Type) where
  gamma : F
  deriving DecidableEq, Repr

/-- `Newton::new()`: `gamma = 1.0`. -/
def newtonNew {F : Type} [LinearOrderedField F] : Newton F := { gamma := 1 }

/-- `Newton::set_gamma` (src lines 105-114): rejects `gamma <= 0.0 ||
gamma > 1.0` with `InvalidParameter`; the function receives no operator, so
no operator evaluation can occur. -/
def newtonSetGamma {F : Type} [LinearOrderedField F] (s : Newton F)
    (gamma : F) : Except ArgminErr (Newton F) :=
  if gamma ≤ 0 ∨ 1 < gamma then .error .invalidParameter
  else .ok { s with gamma := gamma }

/-- The output record `ArgminIterData::new().param(p)` of a Newton step:
parameter plus the (unset, hence `none`) termination reason. -/
structure NewtonIterData (P : Type) where
  param : P
  terminationReason : Option TerminationReason

/-- The capabilities consumed by `Newton::next_iter`: fallible `gradient`
and `hessian` from the operator wrapper, and the external linear-algebra
collaborators.  `inv` and `dot` are modelled from the spec (§9: external
contract `invert(matrix) → matrix`, failing on singular input, and
`dot(matrix, vector) → vector`); `scaledSub` is the `ArgminScaledSub`
capability `p.scaled_sub(&gamma, &v) = p - gamma*v`. -/
structure NewtonOps (F P H : Type) where
  gradient : P → Except ArgminErr P
  hessian : P → Except ArgminErr H
  inv : H → Except ArgminErr H
  dot : H → P → P
  scaledSub : P → F → P → P

/-- `Newton::next_iter` (src/src/solver/newton/newton_method.rs lines
123-133).  Returns the step result together with the number of gradient and
hessian calls performed. -/
def newtonMethodNextIter {F P H : Type} (solver : Newton F)
    (ops : NewtonOps F P H) (param : P) :
    Except ArgminErr (NewtonIterData P) × Nat × Nat :=
  match ops.gradient param with
  | .error e => (.error e, 1, 0)
  | .ok grad =>
    match ops.hessian param with
    | .error e => (.error e, 1, 1)
    | .ok hessian =>
      match ops.inv hessian with
      | .error e => (.error e, 1, 1)
      | .ok hinv =>
        (.ok { param := ops.scaledSub param solver.gamma (ops.dot hinv grad),
               terminationReason := none }, 1, 1)

/-- The legacy problem record (src/src/newton.rs / problem.rs): a cost
closure plus optional gradient and hessian closures (plain functions, not
`Result`-returning). -/
structure NewtonRsProblem (F P H : Type) where
  cost : P → F
  gradient : Option (P → P)
  hessian : Option (P → H)

/-- Legacy `Newton::next_iter` (src/src/newton.rs lines 112-129). `none`
models a panic: the source calls `.unwrap()` on the optional closures and on
the `Result` of the Hessian inversion, so a non-invertible Hessian aborts
the process instead of returning an `Err`.  `inv` is the external
`ndarray_linalg` inversion (modelled from the spec: fails on singular
input); `smul`/`sub` are scalar multiplication and vector subtraction. -/
def newtonRsNextIter {F P H : Type} (gamma : F)
    (inv : H → Except ArgminErr H) (dot : H → P → P) (smul : F → P → P)
    (sub : P → P → P) (problem : NewtonRsProblem F P H) (param : P) :
    Option P :=
  match problem.gradient with
  | none => none
  | some gfn =>
    match problem.hessian with
    | none => none
    | some hfn =>
      match inv (hfn param) with
      | .error _ => none
      | .ok hinv => some (sub param (smul gamma (dot hinv (gfn param))))

/-- C5: configuring Newton with `gamma` outside `(0, 1]` — in particular
`gamma = 0` and `gamma = 3/2` — fails with `InvalidParameter` (the setter
receives no operator, so zero apply/gradient/hessian calls can occur),
while any `gamma` in `(0, 1]` is accepted and stored. -/
theorem newton_c5_gamma_range (F : Type) [LinearOrderedField F] (g : F) :
    (newtonSetGamma (newtonNew (F := F)) g = .error .invalidParameter ↔
      ¬ (0 < g ∧ g ≤ 1)) ∧
    (0 < g ∧ g ≤ 1 →
      newtonSetGamma (newtonNew (F := F)) g = .ok { gamma := g }) ∧
    newtonSetGamma (newtonNew (F := F)) 0 = .error .invalidParameter ∧
    newtonSetGamma (newtonNew (F := F)) (3/2) = .error .invalidParameter := by
  have hiff : (g ≤ 0 ∨ 1 < g) ↔ ¬ (0 < g ∧ g ≤ 1) := by
    rw [not_and_or, not_lt, not_le]
  refine ⟨?_, ?_, ?_, ?_⟩
  · unfold newtonSetGamma
    split_ifs with h
    · simpa using hiff.mp h
    · have hok : 0 < g ∧ g ≤ 1 := by
        push_neg at h
        exact ⟨lt_of_not_le (not_le.mpr h.1), le_of_not_lt (not_lt.mpr h.2)⟩
      simpa using hok
  · intro h12
    unfold newtonSetGamma
    rw [if_neg fun hc => (hiff.mp hc) h12]
  · unfold newtonSetGamma
    rw [if_pos (Or.inl (le_refl 0))]
  · unfold newtonSetGamma
    rw [if_pos (Or.inr (by norm_num))]

/-- Witness for C5 at `gamma = 1/2` over the rationals. -/
theorem newton_c5_gamma_range_witness :
    (newtonSetGamma (newtonNew (F := ℚ)) (1/2) = .error .invalidParameter ↔
      ¬ ((0:ℚ) < 1/2 ∧ (1:ℚ)/2 ≤ 1)) ∧
    ((0:ℚ) < 1/2 ∧ (1:ℚ)/2 ≤ 1 →
      newtonSetGamma (newtonNew (F := ℚ)) (1/2) = .ok { gamma := 1/2 }) ∧
    newtonSetGamma (newtonNew (F := ℚ)) 0 = .error .invalidParameter ∧
    newtonSetGamma (newtonNew (F := ℚ)) (3/2) = .error .invalidParameter :=
  newton_c5_gamma_range ℚ (1/2)

/-- C4 (amended): the modern `Newton::next_iter` performs exactly one
gradient and one hessian call, propagates a failed (singular) Hessian
inversion as an error to the caller, and otherwise returns
`param.scaled_sub(gamma, H⁻¹·g)` with no termination reason; the legacy
implementation in src/newton.rs computes the same update
`param - gamma*(H⁻¹·g)` when the inversion succeeds, but panics (`unwrap`)
when the Hessian inversion fails. -/
theorem newton_c4_next_iter (F P H : Type) (solver : Newton F)
    (ops : NewtonOps F P H) (param : P) (g : P) (hm : H)
    (hg : ops.gradient param = .ok g) (hh : ops.hessian param = .ok hm) :
    (newtonMethodNextIter solver ops param).2 = (1, 1) ∧
    (∀ e, ops.inv hm = .error e →
      (newtonMethodNextIter solver ops param).1 = .error e) ∧
    (∀ hinv, ops.inv hm = .ok hinv →
      (newtonMethodNextIter solver ops param).1 =
        .ok { param := ops.scaledSub param solver.gamma (ops.dot hinv g),
              terminationReason := none }) ∧
    (∀ (gamma : F) (inv : H → Except ArgminErr H) (dot : H → P → P)
        (smul : F → P → P) (sub : P → P → P) (prob : NewtonRsProblem F P H)
        (q : P) (gfn : P → P) (hfn : P → H) (hinv : H),
      prob.gradient = some gfn → prob.hessian = some hfn →
      inv (hfn q) = .ok hinv →
      newtonRsNextIter gamma inv dot smul sub prob q =
        some (sub q (smul gamma (dot hinv (gfn q))))) ∧
    (∀ (gamma : F) (inv : H → Except ArgminErr H) (dot : H → P → P)
        (smul : F → P → P) (sub : P → P → P) (prob : NewtonRsProblem F P H)
        (q : P) (gfn : P → P) (hfn : P → H) (e : ArgminErr),
      prob.gradient = some gfn → prob.hessian = some hfn →
      inv (hfn q) = .error e →
      newtonRsNextIter gamma inv dot smul sub prob q = none) := by
  refine ⟨?_, ?_, ?_, ?_, ?_⟩
  · simp only [newtonMethodNextIter, hg, hh]
    cases hi : ops.inv hm <;> rfl
  · intro e he
    simp only [newtonMethodNextIter, hg, hh, he]
  · intro hinv hi
    simp only [newtonMethodNextIter, hg, hh, hi]
  · intro gamma inv dot smul sub prob q gfn hfn hinv hgf hhf hok
    simp only [newtonRsNextIter, hgf, hhf, hok]
  · intro gamma inv dot smul sub prob q gfn hfn e hgf hhf hinv
    simp only [newtonRsNextIter, hgf, hhf, hinv]

/-- The concrete 1-dimensional capability set used by the C4 witness:
numbers as parameters and 1x1 Hessians, with inversion failing exactly on
the singular Hessian `0`. -/
def c4ops : NewtonOps ℚ ℚ ℚ :=
  { gradient := fun p => .ok p,
    hessian := fun _ => .ok 2,
    inv := fun h => if h = 0 then .error .numericalError else .ok (1/h),
    dot := fun a b => a * b,
    scaledSub := fun p gam v => p - gam * v }

/-- Witness for C4's amended theorem: 1-dimensional Newton step at
`param = 1` with gradient `1`, Hessian `2`. -/
theorem newton_c4_next_iter_witness :
    (newtonMethodNextIter (newtonNew (F := ℚ)) c4ops 1).2 = (1, 1) ∧
    (∀ e, c4ops.inv 2 = .error e →
      (newtonMethodNextIter (newtonNew (F := ℚ)) c4ops 1).1 = .error e) ∧
    (∀ hinv, c4ops.inv 2 = .ok hinv →
      (newtonMethodNextIter (newtonNew (F := ℚ)) c4ops 1).1 =
        .ok { param := c4ops.scaledSub 1 (newtonNew (F := ℚ)).gamma
                (c4ops.dot hinv 1),
              terminationReason := none }) ∧
    (∀ (gamma : ℚ) (inv : ℚ → Except ArgminErr ℚ) (dot : ℚ → ℚ → ℚ)
        (smul : ℚ → ℚ → ℚ) (sub : ℚ → ℚ → ℚ) (prob : NewtonRsProblem ℚ ℚ ℚ)
        (q : ℚ) (gfn : ℚ → ℚ) (hfn : ℚ → ℚ) (hinv : ℚ),
      prob.gradient = some gfn → prob.hessian = some hfn →
      inv (hfn q) = .ok hinv →
      newtonRsNextIter gamma inv dot smul sub prob q =
        some (sub q (smul gamma (dot hinv (gfn q))))) ∧
    (∀ (gamma : ℚ) (inv : ℚ → Except ArgminErr ℚ) (dot : ℚ → ℚ → ℚ)
        (smul : ℚ → ℚ → ℚ) (sub : ℚ → ℚ → ℚ) (prob : NewtonRsProblem ℚ ℚ ℚ)
        (q : ℚ) (gfn : ℚ → ℚ) (hfn : ℚ → ℚ) (e : ArgminErr),
      prob.gradient = some gfn → prob.hessian = some hfn →
      inv (hfn q) = .error e →
      newtonRsNextIter gamma inv dot smul sub prob q = none) :=
  newton_c4_next_iter ℚ ℚ ℚ (newtonNew (F := ℚ)) c4ops 1 1 2 rfl rfl

/-- C4 counterexample: the legacy `Newton::next_iter` of src/newton.rs, run
on a singular (zero) 1x1 Hessian at `param = 1`, panics (modelled `none`)
instead of returning an error to the caller. -/
theorem newton_c4_counterexample :
    newtonRsNextIter (F := ℚ) (P := ℚ) (H := ℚ) 1
      (fun h => if h = 0 then .error .numericalError else .ok (1/h))
      (fun a b => a * b) (fun a b => a * b) (fun a b => a - b)
      { cost := fun z => z, gradient := some (fun z => z),
        hessian := some (fun _ => 0) } 1 = none := by
  simp [newtonRsNextIter]

/-- The legacy Newton iteration state (src/src/newton.rs `NewtonState`,
minus the borrowed problem reference). -/
structure NewtonRsState (P : Type) where
  param : P
  iter : Nat

/-- Legacy `Newton::terminate` (src/src/newton.rs lines 132-134): always
reports that no stopping criterion is met. -/
def newtonRsTerminate {P : Type} (s : NewtonRsState P) : Bool := false

/-- Legacy `Newton::run` loop (src/src/newton.rs lines 145-150) with
explicit fuel: `loop { next_iter()?; if terminate() { break } }`.  `step` is
one successful `next_iter`; `some r` means the loop broke and the run
returned `r` within the given fuel, `none` that it is still looping. -/
def newtonRsRunLoop {P R : Type} (step : NewtonRsState P → NewtonRsState P)
    (finish : NewtonRsState P → R) : Nat → NewtonRsState P → Option R
  | 0, _ => none
  | n + 1, s =>
    let s' := step s
    if newtonRsTerminate s' then some (finish s')
    else newtonRsRunLoop step finish n s'

/-- C8: Newton never signals termination on its own — `terminate` is `false`
on every state, a successful modern `next_iter` carries no termination
reason, and the legacy standalone run loop never returns normally within
any number of iterations when `next_iter` keeps succeeding. -/
theorem newton_c8_no_self_termination (F P H R : Type)
    (step : NewtonRsState P → NewtonRsState P)
    (finish : NewtonRsState P → R) :
    (∀ s : NewtonRsState P, newtonRsTerminate s = false) ∧
    (∀ (solver : Newton F) (ops : NewtonOps F P H) (param : P)
        (d : NewtonIterData P),
      (newtonMethodNextIter solver ops param).1 = .ok d →
      d.terminationReason = none) ∧
    (∀ (fuel : Nat) (s : NewtonRsState P),
      newtonRsRunLoop step finish fuel s = none) := by
  refine ⟨fun s => rfl, ?_, ?_⟩
  · intro solver ops param d hok
    unfold newtonMethodNextIter at hok
    split at hok
    · simp at hok
    · split at hok
      · simp at hok
      · split at hok
        · simp at hok
        · simp only at hok
          injection hok with hok
          rw [← hok]
  · intro fuel
    induction fuel with
    | zero => intro s; rfl
    | succ n ih =>
      intro s
      simp only [newtonRsRunLoop, newtonRsTerminate, if_false]
      exact ih (step s)

/-- Witness for C8 at a concrete step/finish over the rationals. -/
theorem newton_c8_no_self_termination_witness :
    (∀ s : NewtonRsState ℚ, newtonRsTerminate s = false) ∧
    (∀ (solver : Newton ℚ) (ops : NewtonOps ℚ ℚ ℚ) (param : ℚ)
        (d : NewtonIterData ℚ),
      (newtonMethodNextIter solver ops param).1 = .ok d →
      d.terminationReason = none) ∧
    (∀ (fuel : Nat) (s : NewtonRsState ℚ),
      newtonRsRunLoop (fun s => { param := s.param, iter := s.iter + 1 })
        (fun s => s.param) fuel s = none) :=
  newton_c8_no_self_termination ℚ ℚ ℚ ℚ
    (fun s => { param := s.param, iter := s.iter + 1 }) (fun s => s.param)

/-- Core loop of `<Vec<f64> as ArgminParameter>::random`
(src/src/parameter.rs lines 60-73), over the zipped bound pairs.  Modelled
from the spec for the random source: `rand`'s `Range::new(lo, hi)` sampling
draws from `[lo, hi)`; we make the RNG an explicit stream `r : Nat → F` of
unit-interval draws, the `k`-th sample being `lo + r k * (hi - lo)`.
Returns the result together with the number of samples drawn: the source
checks `lower[i] >= upper[i]` per coordinate just before sampling that
coordinate, so samples for earlier coordinates are already drawn when a
later coordinate fails. -/
def vecRandomAux {F : Type} [LinearOrderedField F] (r : Nat → F) :
    Nat → List (F × F) → Except ArgminErr (List F) × Nat
  | _, [] => (.ok [], 0)
  | k, (lo, hi) :: rest =>
    if hi ≤ lo then (.error .invalidParameter, 0)
    else
      let v := lo + r k * (hi - lo)
      let rec_ := vecRandomAux r (k + 1) rest
      (match rec_.1 with
       | .error e => .error e
       | .ok vs => .ok (v :: vs), rec_.2 + 1)

/-- `<Vec<f64> as ArgminParameter>::random(lower, upper)`. -/
def vecRandom {F : Type} [LinearOrderedField F] (r : Nat → F)
    (lower upper : List F) : Except ArgminErr (List F) × Nat :=
  vecRandomAux r 0 (lower.zip upper)

/-- Core loop of `<Array1<T> as ArgminParameter>::random`
(src/src/parameter.rs lines 110-129): the bound check happens inside the
`map` closure and `panic!`s (modelled `none`) instead of returning an
`Err` — the source comments out the intended error return. -/
def array1RandomAux {F : Type} [LinearOrderedField F] (r : Nat → F) :
    Nat → List (F × F) → Option (List F)
  | _, [] => some []
  | k, (lo, hi) :: rest =>
    if hi ≤ lo then none
    else
      match array1RandomAux r (k + 1) rest with
      | none => none
      | some vs => some ((lo + r k * (hi - lo)) :: vs)

/-- `<Array1<T> as ArgminParameter>::random(lower, upper)`; `none` is a
panic. -/
def array1Random {F : Type} [LinearOrderedField F] (r : Nat → F)
    (lower upper : List F) : Option (List F) :=
  array1RandomAux r 0 (lower.zip upper)

theorem vecRandomAux_ok {F : Type} [LinearOrderedField F] (r : Nat → F)
    (hr : ∀ k, 0 ≤ r k ∧ r k < 1) :
    ∀ (l : List (F × F)) (k : Nat), (∀ p ∈ l, p.1 < p.2) →
      ∃ vs : List F, (vecRandomAux r k l).1 = .ok vs ∧
        (vecRandomAux r k l).2 = l.length ∧
        array1RandomAux r k l = some vs ∧
        List.Forall₂ (fun (p : F × F) v => p.1 ≤ v ∧ v ≤ p.2) l vs := by
  intro l
  induction l with
  | nil => exact fun k _ => ⟨[], rfl, rfl, rfl, List.Forall₂.nil⟩
  | cons p rest ih =>
    intro k hall
    obtain ⟨lo, hi⟩ := p
    have hlo : lo < hi := hall (lo, hi) (List.mem_cons_self _ _)
    obtain ⟨vs, h1, h2, h3, h4⟩ :=
      ih (k + 1) (fun q hq => hall q (List.mem_cons_of_mem _ hq))
    refine ⟨(lo + r k * (hi - lo)) :: vs, ?_, ?_, ?_, ?_⟩
    · simp only [vecRandomAux, if_neg (not_le.mpr hlo), h1]
    · simp only [vecRandomAux, if_neg (not_le.mpr hlo), h2, List.length_cons]
    · simp only [array1RandomAux, if_neg (not_le.mpr hlo), h3]
    · refine List.Forall₂.cons ⟨?_, ?_⟩ h4
      · have h0 := (hr k).1
        nlinarith
      · have h0 := (hr k).1
        have h1' := (hr k).2
        nlinarith

theorem vecRandomAux_err {F : Type} [LinearOrderedField F] (r : Nat → F) :
    ∀ (l : List (F × F)) (k : Nat), (∃ p ∈ l, p.2 ≤ p.1) →
      (vecRandomAux r k l).1 = .error .invalidParameter ∧
      (vecRandomAux r k l).2 =
        (l.takeWhile (fun p => decide (p.1 < p.2))).length ∧
      array1RandomAux r k l = none := by
  intro l
  induction l with
  | nil => intro k h; simp at h
  | cons p rest ih =>
    intro k hex
    obtain ⟨lo, hi⟩ := p
    by_cases hbad : hi ≤ lo
    · refine ⟨?_, ?_, ?_⟩
      · simp only [vecRandomAux, if_pos hbad]
      · simp only [vecRandomAux, if_pos hbad, List.takeWhile]
        simp [not_lt.mpr hbad]
      · simp only [array1RandomAux, if_pos hbad]
    · have hlo : lo < hi := not_le.mp hbad
      have hex' : ∃ p ∈ rest, p.2 ≤ p.1 := by
        rcases hex with ⟨q, hq, hqle⟩
        rcases List.mem_cons.mp hq with rfl | hq'
        · exact absurd hqle (not_le.mpr hlo)
        · exact ⟨q, hq', hqle⟩
      have hrec := ih (k + 1) hex'
      refine ⟨?_, ?_, ?_⟩
      · simp only [vecRandomAux, if_neg hbad, hrec.1]
      · simp only [vecRandomAux, if_neg hbad, hrec.2.1, List.takeWhile]
        simp [hlo]
      · simp only [array1RandomAux, if_neg hbad, hrec.2.2]

/-- C6 (amended): when every zipped coordinate satisfies `lower[i] <
upper[i]`, both implementations return a vector with
`lower[i] ≤ value[i] ≤ upper[i]` in every coordinate (and the `Vec` one
draws one sample per coordinate); when some coordinate violates the bound,
the `Vec` implementation fails with `InvalidParameter` after drawing one
sample per coordinate preceding the first violation (not before any
sampling), and the `Array1` implementation panics instead of returning the
error. -/
theorem param_c6_random_bounds (F : Type) [LinearOrderedField F]
    (r : Nat → F) (hr : ∀ k, 0 ≤ r k ∧ r k < 1) (lower upper : List F) :
    ((∀ p ∈ lower.zip upper, p.1 < p.2) →
      ∃ vs : List F, (vecRandom r lower upper).1 = .ok vs ∧
        (vecRandom r lower upper).2 = (lower.zip upper).length ∧
        array1Random r lower upper = some vs ∧
        List.Forall₂ (fun (p : F × F) v => p.1 ≤ v ∧ v ≤ p.2)
          (lower.zip upper) vs) ∧
    ((∃ p ∈ lower.zip upper, p.2 ≤ p.1) →
      (vecRandom r lower upper).1 = .error .invalidParameter ∧
      (vecRandom r lower upper).2 =
        ((lower.zip upper).takeWhile (fun p => decide (p.1 < p.2))).length ∧
      array1Random r lower upper = none) :=
  ⟨fun hall => vecRandomAux_ok r hr (lower.zip upper) 0 hall,
   fun hex => vecRandomAux_err r (lower.zip upper) 0 hex⟩

/-- C6 counterexample: with bounds `lower = [0, 5]`, `upper = [1, 2]` the
`Vec` implementation fails with `InvalidParameter` only after drawing one
sample (for the first coordinate), refuting "before drawing any sample";
and with `lower = [1]`, `upper = [0]` the `Array1` implementation panics
(`none`) instead of returning an `InvalidParameter` error. -/
theorem param_c6_counterexample :
    (vecRandom (fun _ => (1:ℚ)/2) [0, 5] [1, 2]).1 =
      .error .invalidParameter ∧
    (vecRandom (fun _ => (1:ℚ)/2) [0, 5] [1, 2]).2 = 1 ∧
    array1Random (fun _ => (1:ℚ)/2) [1] [0] = none := by
  refine ⟨?_, ?_, ?_⟩ <;>
    norm_num [vecRandom, vecRandomAux, array1Random, array1RandomAux,
      List.zip]

/-- Witness for C6's amended theorem with the constant stream `1/2` and
bounds `[0, 1]` and `[1, 3]`. -/
theorem param_c6_random_bounds_witness :
    ((∀ p ∈ ([(0:ℚ), 1].zip [1, 3]), p.1 < p.2) →
      ∃ vs : List ℚ,
        (vecRandom (fun _ => (1:ℚ)/2) [0, 1] [1, 3]).1 = .ok vs ∧
        (vecRandom (fun _ => (1:ℚ)/2) [0, 1] [1, 3]).2 =
          (([(0:ℚ), 1].zip [1, 3])).length ∧
        array1Random (fun _ => (1:ℚ)/2) [0, 1] [1, 3] = some vs ∧
        List.Forall₂ (fun (p : ℚ × ℚ) v => p.1 ≤ v ∧ v ≤ p.2)
          ([(0:ℚ), 1].zip [1, 3]) vs) ∧
    ((∃ p ∈ ([(0:ℚ), 1].zip [1, 3]), p.2 ≤ p.1) →
      (vecRandom (fun _ => (1:ℚ)/2) [0, 1] [1, 3]).1 =
        .error .invalidParameter ∧
      (vecRandom (fun _ => (1:ℚ)/2) [0, 1] [1, 3]).2 =
        ((([(0:ℚ), 1].zip [1, 3])).takeWhile
          (fun p => decide (p.1 < p.2))).length ∧
      array1Random (fun _ => (1:ℚ)/2) [0, 1] [1, 3] = none) :=
  param_c6_random_bounds ℚ (fun _ => 1/2) (fun _ => by norm_num) [0, 1] [1, 3]

/-- Concrete state used by the C1 witness. -/
def brentC1state : BrentState ℚ :=
  { eps := 1/10, t := 1/10, a := 0, b := 1, u := 0, v := 0, w := 0, x := 1/2,
    fv := 1, fw := 1, fx := 1, e := 0, d := 0, c := 2/5 }

/-- Witness for C1 at `brentC1state`. -/
theorem brent_c1_termination_witness :
    ((brentNextIter (fun z : ℚ => z) brentC1state).targetPrecisionReached
        = true ↔ brentDone brentC1state) ∧
    (brentDone brentC1state →
      (brentNextIter (fun z : ℚ => z) brentC1state).param =
        brentC1state.x ∧
      (brentNextIter (fun z : ℚ => z) brentC1state).cost =
        brentC1state.fx ∧
      (brentNextIter (fun z : ℚ => z) brentC1state).applies = 0) ∧
    (¬ brentDone brentC1state →
      (brentNextIter (fun z : ℚ => z) brentC1state).applies = 1) :=
  brent_c1_termination ℚ (fun z => z) brentC1state
